import Mathlib

/-!
Verification of the SRM survey-cleaning pipeline (src/main.py, src/stuff.py).

The Python sources are shallowly embedded: cells are `Option String`
(pandas NaN is `none`), parsed numbers are `Option ℚ`, and statistics are
real numbers.  The external Student-t CDF (scipy) is an abstract parameter.
-/

namespace SRM

/-- Python whitespace characters, as matched by `str.strip` and the regex
class backslash-s (ASCII fragment). -/
def isSpace (c : Char) : Bool :=
  c == ' ' || c == '\t' || c == '\n' || c == '\r' || c == '\x0b' || c == '\x0c'

/-- Python `str.strip()`: remove leading and trailing whitespace. -/
def strip (l : List Char) : List Char :=
  ((l.dropWhile isSpace).reverse.dropWhile isSpace).reverse

/-- ASCII lower-casing of one character, the ASCII fragment of Python
`str.lower()`. -/
def lowerChar (c : Char) : Char :=
  if 'A' ≤ c && c ≤ 'Z' then Char.ofNat (c.toNat + 32) else c

/-- Python `str.lower()` on a character list (ASCII fragment). -/
def lower (l : List Char) : List Char := l.map lowerChar

/-- Python substring test `needle in hay`. -/
def containsSub (n : List Char) : List Char → Bool
  | [] => n.isEmpty
  | c :: t => n.isPrefixOf (c :: t) || containsSub n t

/-- After the dash of a candidate range match: skip whitespace and require
a digit (the final digit-run of the regex). -/
def afterDash (r : List Char) : Bool :=
  match r.dropWhile isSpace with
  | d :: _ => d.isDigit
  | [] => false

/-- After the leading digit-run of a candidate range match: skip whitespace
and require a dash followed by `afterDash`. -/
def afterInt (l : List Char) : Bool :=
  match l.dropWhile isSpace with
  | c :: r => c == '-' && afterDash r
  | [] => false

/-- Does the range regex (digits, optional spaces, dash, optional spaces,
digits) match starting at the head of the list? -/
def rangeAt : List Char → Bool
  | [] => false
  | c :: rest => c.isDigit && afterInt (rest.dropWhile Char.isDigit)

/-- Python `re.search` of the range pattern: does it match anywhere? -/
def hasRange : List Char → Bool
  | [] => false
  | c :: rest => rangeAt (c :: rest) || hasRange rest

/-- The optional fraction part after the integer token: a dot followed by a
maximal (possibly empty) digit run; anything else contributes nothing. -/
def fracOf : List Char → List Char
  | c :: r => if c = '.' then r.takeWhile Char.isDigit else []
  | [] => []

/-- Python `re.search` of the numeric-token pattern: first position where a
digit occurs, maximal digit run from there, optional fraction. Returns the
integer digits and the fraction digits. -/
def firstNum : List Char → Option (List Char × List Char)
  | [] => none
  | c :: rest =>
    if c.isDigit then
      some ((c :: rest).takeWhile Char.isDigit, fracOf ((c :: rest).dropWhile Char.isDigit))
    else
      firstNum rest

/-- Value of a digit list read in base 10. -/
def digitsToNat (l : List Char) : Nat :=
  l.foldl (fun a c => 10 * a + (c.toNat - 48)) 0

/-- Value of the token `ds.fs` (or just `ds` when `fs` is empty), as Python
`float` computes it, represented exactly as a rational. -/
def numValue (ds fs : List Char) : ℚ :=
  (digitsToNat ds : ℚ) + (digitsToNat fs : ℚ) / (10 : ℚ) ^ fs.length

/-- Embedding of `parse_number` (src/main.py) and the identical `parse_num`
(src/stuff.py): missing stays missing, a string containing a digits-dash-
digits range yields missing, otherwise the first numeric token is parsed. -/
def parse_number (x : Option String) : Option ℚ :=
  match x with
  | none => none
  | some x =>
    let s := strip x.data
    if hasRange s then none
    else
      match firstNum s with
      | none => none
      | some (ds, fs) => some (numValue ds fs)

/-- Embedding of `normalize_pathway` (src/main.py): case-insensitive
substring match, checking jc/junior before poly/polytechnic. -/
def normalize_pathway (x : Option String) : Option String :=
  match x with
  | none => none
  | some x =>
    let s := lower (strip x.data)
    if containsSub (("jc").data) s || containsSub (("junior").data) s then some ("JC")
    else if containsSub (("poly").data) s || containsSub (("polytechnic").data) s then
      some ("Poly")
    else none

/-- Embedding of the `normalize_pathway` variant in src/stuff.py: it only
tests the substrings jc and poly. -/
def normalize_pathway_v2 (x : Option String) : Option String :=
  match x with
  | none => none
  | some x =>
    let s := lower (strip x.data)
    if containsSub (("jc").data) s then some ("JC")
    else if containsSub (("poly").data) s then some ("Poly")
    else none

/-- The spec's range pattern, stated independently of the scanning code:
somewhere in the text, one or more digits, optional whitespace, a dash,
optional whitespace, one or more digits. -/
def HasRangePattern (l : List Char) : Prop :=
  ∃ pre d₁ w₁ w₂ d₂ post,
    l = pre ++ d₁ ++ w₁ ++ '-' :: (w₂ ++ d₂ ++ post) ∧
    d₁ ≠ [] ∧ (∀ c ∈ d₁, c.isDigit = true) ∧
    (∀ c ∈ w₁, isSpace c = true) ∧ (∀ c ∈ w₂, isSpace c = true) ∧
    d₂ ≠ [] ∧ (∀ c ∈ d₂, c.isDigit = true)

/-- A raw CSV row: the cell under a header, `none` for a missing cell. -/
def RawRow : Type := String → Option String

/-- One row of the cleaned table built by src/main.py. -/
structure DerivedRecord where
  RespondentID : Nat
  Pathway : Option String
  StudyHours_Daily_Normal : Option ℚ
  StudyHours_Daily_Exam : Option ℚ
  StressLevel : Option ℚ
  StressReason_Raw : String
  StudyHours_Weekly_Normal : Option ℚ
  Flag_MissingPathway : Bool
  Flag_MissingDaily : Bool
  Flag_OutlierDaily : Bool
  Flag_VeryHighDaily : Bool
deriving DecidableEq

/-- Candidate headers for the pathway column (src/main.py lines 58-63). -/
def pathwayCandidates : List String :=
  [("Are you from JC or Poly?"), ("Are you from JC or Poly"), ("JC or Poly"), ("Pathway")]

/-- Candidate headers for the normal-week daily hours column (lines 65-70). -/
def dailyNormalCandidates : List String :=
  [("On Average, how many hours do you study per day outside of school (number only)"),
   ("On Average, how many hours do you study per day outside of school"),
   ("Study hours per day outside school (normal week)"),
   ("StudyHours_Normal")]

/-- Candidate headers for the exam-week daily hours column (lines 72-77). -/
def dailyExamCandidates : List String :=
  [("On Average, how many hours do you study per day outside of school during exam week (number only)"),
   ("On Average, how many hours do you study per day outside of school during exam week"),
   ("Study hours per day outside school (exam week)"),
   ("StudyHours_Exam")]

/-- Candidate headers for the stress-level column (lines 79-84). -/
def stressCandidates : List String :=
  [("On a scale of 1-10, how stressed are you?"), ("On a scale of 1-10, how stressed are you"),
   ("Stress level"), ("Stress")]

/-- Candidate headers for the stress-reason column (lines 86-91). -/
def stressReasonCandidates : List String :=
  [("Why did you choose that stress level?"), ("Why did you choose that stress level"),
   ("Stress reason"), ("Reason")]

/-- Embedding of `pick_column` (src/main.py): the first candidate present
among the headers, or `none`. -/
def pick_column (headers : List String) (candidates : List String) : Option String :=
  candidates.find? (fun c => headers.contains c)

/-- Embedding of the per-row derivation of src/main.py lines 105-143. -/
def buildRecord (i : Nat) (cp cd : String) (ce cs cr : Option String) (row : RawRow) :
    DerivedRecord :=
  let pathway := normalize_pathway (row cp)
  let daily := parse_number (row cd)
  { RespondentID := i
    Pathway := pathway
    StudyHours_Daily_Normal := daily
    StudyHours_Daily_Exam :=
      match ce with
      | some c => parse_number (row c)
      | none => none
    StressLevel :=
      match cs with
      | some c => parse_number (row c)
      | none => none
    StressReason_Raw :=
      match cr with
      | some c =>
        match row c with
        | some t => t
        | none => ("nan")
      | none => ("")
    StudyHours_Weekly_Normal := daily.map (fun d => d * 7)
    Flag_MissingPathway := pathway.isNone
    Flag_MissingDaily := daily.isNone
    Flag_OutlierDaily :=
      match daily with
      | some d => decide (d < 0) || decide (12 < d)
      | none => false
    Flag_VeryHighDaily :=
      match daily with
      | some d => decide (8 < d)
      | none => false }

/-- Build the derived table of src/main.py, respondent ids counting up from
the given start (the script starts at 1). -/
def buildTable (cp cd : String) (ce cs cr : Option String) :
    Nat → List RawRow → List DerivedRecord
  | _, [] => []
  | i, row :: rest => buildRecord i cp cd ce cs cr row :: buildTable cp cd ce cs cr (i + 1) rest

/-- Embedding of the analysis filter of src/main.py lines 149-153. -/
def analysisFilter (l : List DerivedRecord) : List DerivedRecord :=
  l.filter (fun r =>
    (r.Pathway == some ("JC") || r.Pathway == some ("Poly"))
      && r.StudyHours_Daily_Normal.isSome && !r.Flag_OutlierDaily)

/-- The configuration error raised by src/main.py lines 93-99 when a
required column is missing; its message carries every discovered header
and the names of the unmapped required fields. -/
structure ConfigError where
  found_headers : List String
  missing_keys : List String
deriving DecidableEq

/-- The tables a successful src/main.py run goes on to export. -/
structure MainResult where
  df : List DerivedRecord
  df_analysis : List DerivedRecord
  df_poly : List DerivedRecord
  df_jc : List DerivedRecord

/-- Names of the files src/main.py writes; they are written only after the
column check has passed, so an erroring run produces none. -/
def outputFiles : Except ConfigError MainResult → List String
  | Except.error _ => []
  | Except.ok _ =>
    [("clean_all_analysis_ready.csv"), ("clean_poly_one_sample.csv"),
     ("clean_jc_vs_poly_two_sample.csv"), ("summary_stats.txt")]

/-- Embedding of the src/main.py run from column resolution to the analysis
split: either both required columns resolve, or the run aborts with a
`ConfigError` before building or writing anything. -/
def runMain (headers : List String) (rows : List RawRow) : Except ConfigError MainResult :=
  let col_pathway := pick_column headers pathwayCandidates
  let col_daily_normal := pick_column headers dailyNormalCandidates
  let col_daily_exam := pick_column headers dailyExamCandidates
  let col_stress := pick_column headers stressCandidates
  let col_stress_reason := pick_column headers stressReasonCandidates
  match col_pathway, col_daily_normal with
  | some cp, some cd =>
    let df := buildTable cp cd col_daily_exam col_stress col_stress_reason 1 rows
    let ana := analysisFilter df
    Except.ok
      { df := df
        df_analysis := ana
        df_poly := ana.filter (fun r => r.Pathway == some ("Poly"))
        df_jc := ana.filter (fun r => r.Pathway == some ("JC")) }
  | cpO, cdO =>
    Except.error
      { found_headers := headers
        missing_keys :=
          (if cpO.isNone then [("pathway")] else [])
            ++ (if cdO.isNone then [("daily_normal")] else []) }

/-- One row of the cleaned table built by src/stuff.py (fewer columns and
no outlier flag). -/
structure StuffRecord where
  RespondentID : Nat
  Pathway : Option String
  StudyHours_Daily_Normal : Option ℚ
  StudyHours_Weekly_Normal : Option ℚ
  StressLevel : Option ℚ
  StressReason : String
  Flag_VeryHighDaily : Bool
deriving DecidableEq

/-- Hard-coded pathway header of src/stuff.py. -/
def COL_PATHWAY : String := ("Are you from JC or Poly?")

/-- Hard-coded daily-hours header of src/stuff.py. -/
def COL_DAILY : String :=
  ("On Average, how many hours do you study per day outside of school (number only)")

/-- Hard-coded stress header of src/stuff.py. -/
def COL_STRESS : String := ("On a scale of 1-10, how stressed are you?")

/-- Hard-coded stress-reason header of src/stuff.py. -/
def COL_REASON : String := ("Why did you choose that stress level?")

/-- Embedding of the per-row derivation of src/stuff.py lines 47-63. -/
def buildRecordV2 (i : Nat) (row : RawRow) : StuffRecord :=
  let pathway := normalize_pathway_v2 (row COL_PATHWAY)
  let daily := parse_number (row COL_DAILY)
  { RespondentID := i
    Pathway := pathway
    StudyHours_Daily_Normal := daily
    StudyHours_Weekly_Normal := daily.map (fun d => 7 * d)
    StressLevel := parse_number (row COL_STRESS)
    StressReason :=
      match row COL_REASON with
      | some t => t
      | none => ("nan")
    Flag_VeryHighDaily :=
      match daily with
      | some d => decide (8 < d)
      | none => false }

/-- Build the derived table of src/stuff.py. -/
def buildTableV2 : Nat → List RawRow → List StuffRecord
  | _, [] => []
  | i, row :: rest => buildRecordV2 i row :: buildTableV2 (i + 1) rest

/-- Embedding of the analysis filter of src/stuff.py lines 77-80: pathway
and presence of the daily value only, with no outlier condition. -/
def analysisFilterV2 (l : List StuffRecord) : List StuffRecord :=
  l.filter (fun r =>
    (r.Pathway == some ("JC") || r.Pathway == some ("Poly"))
      && r.StudyHours_Daily_Normal.isSome)

/-- Arithmetic mean, as pandas `.mean()` computes it. -/
noncomputable def mean (xs : List ℝ) : ℝ := xs.sum / xs.length

/-- Bessel-corrected sample variance: squared-deviation sum over n minus
one, the pandas `ddof=1` denominator. -/
noncomputable def var1 (xs : List ℝ) : ℝ :=
  ((xs.map (fun x => (x - mean xs) ^ 2)).sum) / ((xs.length : ℝ) - 1)

/-- Bessel-corrected sample standard deviation, the defined case of pandas
`.std(ddof=1)` (samples of size at least two). -/
noncomputable def std1 (xs : List ℝ) : ℝ := Real.sqrt (var1 xs)

/-- pandas `.std(ddof=1)` including its degenerate case: on a sample of
fewer than two values it yields NaN, embedded here as `none`. -/
noncomputable def std_pd (xs : List ℝ) : Option ℝ :=
  if xs.length ≤ 1 then none else some (std1 xs)

/-- The sample standard deviation exactly as the spec words it: square root
of the squared-deviation sum divided by n minus one (Bessel's correction). -/
noncomputable def sd_spec (xs : List ℝ) : ℝ :=
  Real.sqrt (((xs.map (fun x => (x - mean xs) ^ 2)).sum) / ((xs.length : ℝ) - 1))

/-- The benchmark weekly mean of src/stuff.py line 150. -/
noncomputable def theta0 : ℝ := 15.5

/-- One-sample t statistic of src/stuff.py line 156 (Poly weekly hours
against the benchmark). -/
noncomputable def t1 (poly : List ℝ) : ℝ :=
  (mean poly - theta0) / (std1 poly / Real.sqrt (poly.length : ℝ))

/-- Two-tailed p-value of src/stuff.py line 157, with the scipy Student-t
CDF abstracted as the parameter `Tcdf` (value, degrees of freedom). -/
noncomputable def p1 (Tcdf : ℝ → ℝ → ℝ) (poly : List ℝ) : ℝ :=
  2 * (1 - Tcdf |t1 poly| ((poly.length - 1 : ℕ) : ℝ))

/-- Welch standard error of src/stuff.py line 164. -/
noncomputable def se (jc poly : List ℝ) : ℝ :=
  Real.sqrt (std1 jc ^ 2 / (jc.length : ℝ) + std1 poly ^ 2 / (poly.length : ℝ))

/-- Welch t statistic of src/stuff.py line 165. -/
noncomputable def t2 (jc poly : List ℝ) : ℝ := (mean jc - mean poly) / se jc poly

/-- Welch-Satterthwaite degrees of freedom of src/stuff.py line 166. -/
noncomputable def df_welch (jc poly : List ℝ) : ℝ :=
  (std1 jc ^ 2 / (jc.length : ℝ) + std1 poly ^ 2 / (poly.length : ℝ)) ^ 2 /
    ((std1 jc ^ 2 / (jc.length : ℝ)) ^ 2 / ((jc.length - 1 : ℕ) : ℝ)
      + (std1 poly ^ 2 / (poly.length : ℝ)) ^ 2 / ((poly.length - 1 : ℕ) : ℝ))

/-- One-tailed upper-tail p-value of src/stuff.py line 167. -/
noncomputable def p2_one_tailed (Tcdf : ℝ → ℝ → ℝ) (jc poly : List ℝ) : ℝ :=
  1 - Tcdf (t2 jc poly) (df_welch jc poly)

/-- A concrete raw row: JC respondent studying 3 hours a day. -/
def rowJC3 : RawRow := fun h =>
  if h = COL_PATHWAY then some ("JC") else if h = COL_DAILY then some ("3") else none

/-- A concrete raw row: JC respondent reporting 13 hours a day, outside the
plausible range. -/
def rowJC13 : RawRow := fun h =>
  if h = COL_PATHWAY then some ("JC") else if h = COL_DAILY then some ("13") else none

/-- Helper: evaluate `parse_number` once the range test and the token search
have been decided. -/
lemma parse_number_eval (s : String) (ds fs : List Char)
    (h1 : hasRange (strip s.data) = false)
    (h2 : firstNum (strip s.data) = some (ds, fs)) :
    parse_number (some s) = some (numValue ds fs) := by
  simp [parse_number, h1, h2]

example : parse_number (some ("6-7")) = none := by decide
example : parse_number (some ("")) = none := by decide
example : parse_number (some ("3 hours")) = some 3 := by
  rw [parse_number_eval _ ['3'] [] (by decide) (by decide)]
  have h3 : digitsToNat ['3'] = 3 := rfl
  have h4 : digitsToNat [] = 0 := rfl
  simp [numValue, h3, h4]
example : parse_number (some ("2.5")) = some (5/2) := by
  rw [parse_number_eval _ ['2'] ['5'] (by decide) (by decide)]
  have h3 : digitsToNat ['2'] = 2 := rfl
  have h4 : digitsToNat ['5'] = 5 := rfl
  simp [numValue, h3, h4]
  norm_num
example : parse_number (some ("-5")) = some 5 := by
  rw [parse_number_eval _ ['5'] [] (by decide) (by decide)]
  have h3 : digitsToNat ['5'] = 5 := rfl
  have h4 : digitsToNat [] = 0 := rfl
  simp [numValue, h3, h4]
example : normalize_pathway (some ("Junior College")) = some ("JC") := by decide
example : normalize_pathway (some ("I am from POLY")) = some ("Poly") := by decide
example : normalize_pathway (some ("N/A")) = none := by decide
example : normalize_pathway_v2 (some ("Junior College")) = none := by decide
example : normalize_pathway_v2 (some ("jc")) = some ("JC") := by decide

/-- A whitespace character is never a digit. -/
lemma isDigit_eq_false_of_isSpace {c : Char} (h : isSpace c = true) : c.isDigit = false := by
  simp only [isSpace, Bool.or_eq_true, beq_iff_eq] at h
  rcases h with ((((h | h) | h) | h) | h) | h <;> subst h <;> decide

/-- A digit is never a whitespace character. -/
lemma isSpace_eq_false_of_isDigit {c : Char} (h : c.isDigit = true) : isSpace c = false := by
  cases hs : isSpace c
  · rfl
  · rw [isDigit_eq_false_of_isSpace hs] at h
    cases h

/-- The embedded substring test agrees with the infix relation. -/
lemma containsSub_iff (n l : List Char) : containsSub n l = true ↔ n <:+: l := by
  induction l with
  | nil => simp [containsSub, List.infix_nil, List.isEmpty_iff]
  | cons c t ih =>
    rw [containsSub, Bool.or_eq_true, ih, List.isPrefixOf_iff_prefix, List.infix_cons_iff]

/-- Dropping under a predicate skips a fully-satisfying block and stops at
the first failing element. -/
lemma dropWhile_all_append (p : Char → Bool) (w : List Char) (a : Char) (r : List Char)
    (hw : ∀ c ∈ w, p c = true) (ha : p a = false) :
    (w ++ a :: r).dropWhile p = a :: r := by
  induction w with
  | nil => simp [List.dropWhile_cons, ha]
  | cons x xs ih =>
    have hx : p x = true := hw x (by simp)
    simp only [List.cons_append, List.dropWhile_cons, hx, if_true]
    exact ih (fun c hc => hw c (by simp [hc]))

/-- Taking under a predicate keeps exactly a fully-satisfying block when the
remainder starts with a failing element. -/
lemma takeWhile_all_append (p : Char → Bool) (w r : List Char)
    (hw : ∀ c ∈ w, p c = true) (hr : ∀ c, r.head? = some c → p c = false) :
    (w ++ r).takeWhile p = w ∧ (w ++ r).dropWhile p = r := by
  induction w with
  | nil =>
    simp only [List.nil_append]
    cases r with
    | nil => simp
    | cons a t =>
      have ha : p a = false := hr a rfl
      simp [List.takeWhile_cons, List.dropWhile_cons, ha]
  | cons x xs ih =>
    have hx : p x = true := hw x (by simp)
    have ih' := ih (fun c hc => hw c (by simp [hc]))
    simp [List.takeWhile_cons, List.dropWhile_cons, hx, ih'.1, ih'.2]

/-- Dropping under a predicate is the identity when the head fails it. -/
lemma dropWhile_eq_self_of_head (p : Char → Bool) (l : List Char)
    (h : ∀ c, l.head? = some c → p c = false) : l.dropWhile p = l := by
  cases l with
  | nil => rfl
  | cons a t => simp [List.dropWhile_cons, h a rfl]

/-- Extending the text to the left cannot destroy a range match. -/
lemma hasRange_append (pre l : List Char) (h : hasRange l = true) :
    hasRange (pre ++ l) = true := by
  induction pre with
  | nil => simpa using h
  | cons c t ih =>
    have e : hasRange ((c :: t) ++ l) = (rangeAt (c :: (t ++ l)) || hasRange (t ++ l)) := rfl
    rw [e, ih, Bool.or_true]

/-- The range scanner fires on a digit followed by spaces, a dash, spaces
and a digit block. -/
lemma rangeAt_core (d : Char) (w₁ w₂ d₂ post : List Char)
    (hd : d.isDigit = true)
    (hw₁ : ∀ c ∈ w₁, isSpace c = true) (hw₂ : ∀ c ∈ w₂, isSpace c = true)
    (hd₂ne : d₂ ≠ []) (hd₂ : ∀ c ∈ d₂, c.isDigit = true) :
    rangeAt (d :: (w₁ ++ '-' :: (w₂ ++ d₂ ++ post))) = true := by
  obtain ⟨e, d₂t, rfl⟩ := List.exists_cons_of_ne_nil hd₂ne
  simp only [List.append_assoc, List.cons_append]
  have h1 : (w₁ ++ '-' :: (w₂ ++ e :: (d₂t ++ post))).dropWhile Char.isDigit =
      w₁ ++ '-' :: (w₂ ++ e :: (d₂t ++ post)) := by
    apply dropWhile_eq_self_of_head
    intro c hc
    cases w₁ with
    | nil =>
      simp only [List.nil_append, List.head?_cons, Option.some_inj] at hc
      subst hc; decide
    | cons a t =>
      simp only [List.cons_append, List.head?_cons, Option.some_inj] at hc
      subst hc
      exact isDigit_eq_false_of_isSpace (hw₁ a (by simp))
  have h2 : (w₁ ++ '-' :: (w₂ ++ e :: (d₂t ++ post))).dropWhile isSpace =
      '-' :: (w₂ ++ e :: (d₂t ++ post)) :=
    dropWhile_all_append isSpace w₁ '-' _ hw₁ (by decide)
  have h3 : (w₂ ++ e :: (d₂t ++ post)).dropWhile isSpace = e :: (d₂t ++ post) :=
    dropWhile_all_append isSpace w₂ e _ hw₂
      (isSpace_eq_false_of_isDigit (hd₂ e (by simp)))
  have h4 : afterDash (w₂ ++ e :: (d₂t ++ post)) = true := by
    rw [afterDash, h3]
    exact hd₂ e (by simp)
  rw [rangeAt, h1, afterInt, h2]
  simp [h4, hd]

/-- The range scanner agrees with the spec's range pattern. -/
lemma hasRange_iff (l : List Char) : hasRange l = true ↔ HasRangePattern l := by
  constructor
  · induction l with
    | nil => intro h; cases h
    | cons c rest ih =>
      intro h
      rw [hasRange, Bool.or_eq_true] at h
      rcases h with h | h
      · rw [rangeAt, Bool.and_eq_true] at h
        obtain ⟨hc, hAfter⟩ := h
        rw [afterInt] at hAfter
        cases h2 : (rest.dropWhile Char.isDigit).dropWhile isSpace with
        | nil => rw [h2] at hAfter; cases hAfter
        | cons x r3 =>
          rw [h2] at hAfter
          rw [Bool.and_eq_true, beq_iff_eq] at hAfter
          obtain ⟨rfl, hDash⟩ := hAfter
          rw [afterDash] at hDash
          cases h3 : r3.dropWhile isSpace with
          | nil => rw [h3] at hDash; cases hDash
          | cons e tl =>
            rw [h3] at hDash
            refine ⟨[], c :: rest.takeWhile Char.isDigit,
              (rest.dropWhile Char.isDigit).takeWhile isSpace,
              r3.takeWhile isSpace, [e], tl, ?_, by simp, ?_, ?_, ?_, by simp, ?_⟩
            · have e1 := List.takeWhile_append_dropWhile Char.isDigit rest
              have e2 := List.takeWhile_append_dropWhile isSpace
                (rest.dropWhile Char.isDigit)
              have e3 := List.takeWhile_append_dropWhile isSpace r3
              rw [h3] at e3
              rw [h2] at e2
              simp only [List.nil_append, List.cons_append, List.append_assoc,
                List.singleton_append]
              conv_lhs => rw [← e1, ← e2, ← e3]
            · intro a ha
              rcases List.mem_cons.mp ha with rfl | ha
              · exact hc
              · exact List.mem_takeWhile_imp ha
            · intro a ha; exact List.mem_takeWhile_imp ha
            · intro a ha; exact List.mem_takeWhile_imp ha
            · intro a ha
              rcases List.mem_singleton.mp ha with rfl
              exact hDash
      · obtain ⟨pre, d₁, w₁, w₂, d₂, post, he, h1, h2, h3, h4, h5, h6⟩ := ih h
        refine ⟨c :: pre, d₁, w₁, w₂, d₂, post, ?_, h1, h2, h3, h4, h5, h6⟩
        rw [he]
        simp [List.cons_append, List.append_assoc]
  · rintro ⟨pre, d₁, w₁, w₂, d₂, post, rfl, hd₁ne, hd₁, hw₁, hw₂, hd₂ne, hd₂⟩
    have hLast : d₁.getLast hd₁ne ∈ d₁ := List.getLast_mem hd₁ne
    have hsplit : pre ++ d₁ ++ w₁ ++ '-' :: (w₂ ++ d₂ ++ post) =
        (pre ++ d₁.dropLast) ++
          (d₁.getLast hd₁ne :: (w₁ ++ '-' :: (w₂ ++ d₂ ++ post))) := by
      conv_lhs => rw [← List.dropLast_append_getLast hd₁ne]
      simp [List.append_assoc]
    rw [hsplit]
    apply hasRange_append
    rw [hasRange, Bool.or_eq_true]
    left
    exact rangeAt_core _ _ _ _ _ (hd₁ _ hLast) hw₁ hw₂ hd₂ne hd₂

/-- The token search skips a digit-free block. -/
lemma firstNum_skip (pre l : List Char) (h : ∀ c ∈ pre, c.isDigit = false) :
    firstNum (pre ++ l) = firstNum l := by
  induction pre with
  | nil => rfl
  | cons c t ih =>
    rw [List.cons_append, firstNum, h c (by simp), if_neg (by simp)]
    exact ih (fun a ha => h a (by simp [ha]))

/-- The token search at a digit block returns the whole block and its
following fraction. -/
lemma firstNum_at (ds rest : List Char) (hne : ds ≠ []) (hds : ∀ c ∈ ds, c.isDigit = true)
    (hrest : ∀ c, rest.head? = some c → c.isDigit = false) :
    firstNum (ds ++ rest) = some (ds, fracOf rest) := by
  obtain ⟨c, t, rfl⟩ := List.exists_cons_of_ne_nil hne
  have h := takeWhile_all_append Char.isDigit (c :: t) rest hds hrest
  rw [List.cons_append, firstNum, hds c (by simp), if_pos rfl]
  rw [← List.cons_append, h.1, h.2]

/-- The token search fails on digit-free text. -/
lemma firstNum_none (l : List Char) (h : ∀ c ∈ l, c.isDigit = false) :
    firstNum l = none := by
  have := firstNum_skip l [] h
  simpa using this

/-- The daily-hours field of a built record is the parsed daily cell. -/
lemma buildRecord_daily (i : Nat) (cp cd : String) (ce cs cr : Option String) (row : RawRow) :
    (buildRecord i cp cd ce cs cr row).StudyHours_Daily_Normal = parse_number (row cd) := rfl

/-- The weekly-hours field of a built record is the mapped daily value. -/
lemma buildRecord_weekly (i : Nat) (cp cd : String) (ce cs cr : Option String) (row : RawRow) :
    (buildRecord i cp cd ce cs cr row).StudyHours_Weekly_Normal =
      (parse_number (row cd)).map (fun d => d * 7) := rfl

/-- The pathway field of a built record is the normalized pathway cell. -/
lemma buildRecord_pathway (i : Nat) (cp cd : String) (ce cs cr : Option String) (row : RawRow) :
    (buildRecord i cp cd ce cs cr row).Pathway = normalize_pathway (row cp) := rfl

/-- The outlier flag of a built record tests the parsed daily value against
the plausible range. -/
lemma buildRecord_flagOutlier (i : Nat) (cp cd : String) (ce cs cr : Option String)
    (row : RawRow) :
    (buildRecord i cp cd ce cs cr row).Flag_OutlierDaily =
      (match parse_number (row cd) with
       | some d => decide (d < 0) || decide (12 < d)
       | none => false) := rfl

/-- Every member of a built table is a built record of some input row. -/
lemma exists_of_mem_buildTable {cp cd : String} {ce cs cr : Option String} :
    ∀ {i : Nat} {rows : List RawRow} {r : DerivedRecord},
      r ∈ buildTable cp cd ce cs cr i rows →
      ∃ j row, row ∈ rows ∧ r = buildRecord j cp cd ce cs cr row := by
  intro i rows
  induction rows generalizing i with
  | nil => intro r h; cases h
  | cons a t ih =>
    intro r h
    rcases List.mem_cons.mp h with h | h
    · exact ⟨i, a, by simp, h⟩
    · obtain ⟨j, row, hm, he⟩ := ih h
      exact ⟨j, row, by simp [hm], he⟩

/-- The boolean analysis predicate of src/main.py agrees, on built records,
with the spec's description: pathway resolved, daily present and inside
the plausible range. -/
lemma buildRecord_pred_iff (i : Nat) (cp cd : String) (ce cs cr : Option String)
    (row : RawRow) :
    (((buildRecord i cp cd ce cs cr row).Pathway == some ("JC")
        || (buildRecord i cp cd ce cs cr row).Pathway == some ("Poly"))
      && (buildRecord i cp cd ce cs cr row).StudyHours_Daily_Normal.isSome
      && !(buildRecord i cp cd ce cs cr row).Flag_OutlierDaily) = true ↔
    (((buildRecord i cp cd ce cs cr row).Pathway = some ("JC")
        ∨ (buildRecord i cp cd ce cs cr row).Pathway = some ("Poly"))
      ∧ ∃ d, (buildRecord i cp cd ce cs cr row).StudyHours_Daily_Normal = some d
        ∧ 0 ≤ d ∧ d ≤ 12) := by
  rw [buildRecord_daily, buildRecord_flagOutlier]
  cases h : parse_number (row cd) with
  | none => simp [h]
  | some d =>
    simp only [h, Option.isSome_some, Bool.and_true, Bool.and_eq_true, Bool.or_eq_true,
      beq_iff_eq, Bool.not_eq_true', Bool.or_eq_false_iff, decide_eq_false_iff_not, not_lt,
      Option.some_inj]
    constructor
    · rintro ⟨hP, h0, h12⟩
      exact ⟨hP, d, rfl, h0, h12⟩
    · rintro ⟨hP, d', rfl, h0, h12⟩
      exact ⟨hP, h0, h12⟩

/-- When the exam column is unresolved, every built record's exam field is
missing. -/
lemma buildTable_exam_none {cp cd : String} {cs cr : Option String} :
    ∀ {i : Nat} {rows : List RawRow} {r : DerivedRecord},
      r ∈ buildTable cp cd none cs cr i rows → r.StudyHours_Daily_Exam = none := by
  intro i rows h
  intro hmem
  obtain ⟨j, row, _, rfl⟩ := exists_of_mem_buildTable hmem
  rfl

/-- The code's standard deviation squared recovers the sample variance. -/
lemma std1_sq (xs : List ℝ) (h : 0 ≤ var1 xs) : std1 xs ^ 2 = var1 xs := by
  rw [std1, Real.sq_sqrt h]

/-- The Welch degrees of freedom rewritten through sample variances. -/
lemma df_welch_eq_var (jc poly : List ℝ) (hj : 0 ≤ var1 jc) (hp : 0 ≤ var1 poly) :
    df_welch jc poly =
      (var1 jc / (jc.length : ℝ) + var1 poly / (poly.length : ℝ)) ^ 2 /
        ((var1 jc / (jc.length : ℝ)) ^ 2 / ((jc.length - 1 : ℕ) : ℝ)
          + (var1 poly / (poly.length : ℝ)) ^ 2 / ((poly.length - 1 : ℕ) : ℝ)) := by
  rw [df_welch, std1_sq jc hj, std1_sq poly hp]

/-- Upper Welch-Satterthwaite bound: the combined degrees of freedom never
exceed the sum of the individual ones. -/
lemma welch_upper (a b m k : ℝ) (ha : 0 < a) (hb : 0 < b) (hm : 0 < m) (hk : 0 < k) :
    (a + b) ^ 2 / (a ^ 2 / m + b ^ 2 / k) ≤ m + k := by
  have hD : 0 < a ^ 2 / m + b ^ 2 / k := by positivity
  rw [div_le_iff hD]
  have e : a ^ 2 / m + b ^ 2 / k = (a ^ 2 * k + b ^ 2 * m) / (m * k) := by
    field_simp
  rw [e, ← mul_div_assoc, le_div_iff (mul_pos hm hk)]
  nlinarith [sq_nonneg (a * k - b * m)]

/-- Lower Welch-Satterthwaite bound: the combined degrees of freedom
strictly exceed the smaller of the individual ones. -/
lemma welch_lower (a b m k : ℝ) (ha : 0 < a) (hb : 0 < b) (hm : 0 < m) (hk : 0 < k) :
    min m k < (a + b) ^ 2 / (a ^ 2 / m + b ^ 2 / k) := by
  have hD : 0 < a ^ 2 / m + b ^ 2 / k := by positivity
  rw [lt_div_iff hD]
  have e : a ^ 2 / m + b ^ 2 / k = (a ^ 2 * k + b ^ 2 * m) / (m * k) := by
    field_simp
  rw [e, ← mul_div_assoc, div_lt_iff (mul_pos hm hk)]
  rcases le_total m k with h | h
  · rw [min_eq_left h]
    nlinarith [mul_pos (mul_pos (mul_pos ha hb) hm) hk,
      mul_nonneg (mul_nonneg (sq_nonneg b) hm.le) (sub_nonneg.mpr h)]
  · rw [min_eq_right h]
    nlinarith [mul_pos (mul_pos (mul_pos ha hb) hm) hk,
      mul_nonneg (mul_nonneg (sq_nonneg a) hk.le) (sub_nonneg.mpr h)]

/-- Sample variance of the two-point sample 0, 2. -/
lemma var1_zero_two : var1 [(0 : ℝ), 2] = 2 := by
  norm_num [var1, mean]

/-- Sample variance of the two-point sample 1, 3. -/
lemma var1_one_three : var1 [(1 : ℝ), 3] = 2 := by
  norm_num [var1, mean]

/-- Unfolding of pathway normalization on a present cell. -/
lemma normalize_pathway_some (z : String) :
    normalize_pathway (some z) =
      (if containsSub (("jc").data) (lower (strip z.data))
          || containsSub (("junior").data) (lower (strip z.data)) then some ("JC")
       else if containsSub (("poly").data) (lower (strip z.data))
          || containsSub (("polytechnic").data) (lower (strip z.data)) then some ("Poly")
       else none) := rfl

/-- The embedded substring test is false exactly when the infix relation
fails. -/
lemma containsSub_eq_false (n l : List Char) : containsSub n l = false ↔ ¬ n <:+: l := by
  rw [← containsSub_iff]
  cases containsSub n l <;> simp

/-- The parser on the cell text 3. -/
lemma parse_number_three : parse_number (some ("3")) = some 3 := by
  rw [parse_number_eval _ ['3'] [] (by decide) (by decide)]
  have h3 : digitsToNat ['3'] = 3 := rfl
  have h4 : digitsToNat [] = 0 := rfl
  simp [numValue, h3, h4]

/-- The parser on the cell text 13. -/
lemma parse_number_thirteen : parse_number (some ("13")) = some 13 := by
  rw [parse_number_eval _ ['1', '3'] [] (by decide) (by decide)]
  have h3 : digitsToNat ['1', '3'] = 13 := rfl
  have h4 : digitsToNat [] = 0 := rfl
  simp [numValue, h3, h4]

/-- A run with an unresolved required column yields exactly the
configuration error carrying the discovered headers. -/
lemma runMain_error (headers : List String) (rows : List RawRow)
    (h : pick_column headers pathwayCandidates = none ∨
      pick_column headers dailyNormalCandidates = none) :
    runMain headers rows = Except.error
      { found_headers := headers
        missing_keys :=
          (if (pick_column headers pathwayCandidates).isNone then [("pathway")] else [])
            ++ (if (pick_column headers dailyNormalCandidates).isNone then [("daily_normal")]
              else []) } := by
  cases hcp : pick_column headers pathwayCandidates with
  | none =>
    cases hcd : pick_column headers dailyNormalCandidates with
    | none => simp [runMain, hcp, hcd]
    | some cd => simp [runMain, hcp, hcd]
  | some cp =>
    cases hcd : pick_column headers dailyNormalCandidates with
    | none => simp [runMain, hcp, hcd]
    | some cd => rcases h with h | h <;> simp_all

/-- C5: in every derived record, of either pipeline variant, the weekly
hours equal exactly seven times the daily hours whenever the daily value is
present, and the two fields are missing together. -/
theorem c5_weekly_seven_times_daily :
    (∀ (i : Nat) (cp cd : String) (ce cs cr : Option String) (row : RawRow),
      (∀ d, (buildRecord i cp cd ce cs cr row).StudyHours_Daily_Normal = some d →
        (buildRecord i cp cd ce cs cr row).StudyHours_Weekly_Normal = some (7 * d)) ∧
      ((buildRecord i cp cd ce cs cr row).StudyHours_Daily_Normal = none ↔
        (buildRecord i cp cd ce cs cr row).StudyHours_Weekly_Normal = none)) ∧
    (∀ (i : Nat) (row : RawRow),
      (∀ d, (buildRecordV2 i row).StudyHours_Daily_Normal = some d →
        (buildRecordV2 i row).StudyHours_Weekly_Normal = some (7 * d)) ∧
      ((buildRecordV2 i row).StudyHours_Daily_Normal = none ↔
        (buildRecordV2 i row).StudyHours_Weekly_Normal = none)) := by
  constructor
  · intro i cp cd ce cs cr row
    rw [buildRecord_daily, buildRecord_weekly]
    cases h : parse_number (row cd) with
    | none => simp
    | some q =>
      constructor
      · intro d hd
        rw [Option.some_inj] at hd
        subst hd
        simp [mul_comm]
      · simp
  · intro i row
    have hd : (buildRecordV2 i row).StudyHours_Daily_Normal =
        parse_number (row COL_DAILY) := rfl
    have hw : (buildRecordV2 i row).StudyHours_Weekly_Normal =
        (parse_number (row COL_DAILY)).map (fun d => 7 * d) := rfl
    rw [hd, hw]
    cases h : parse_number (row COL_DAILY) with
    | none => simp
    | some q =>
      constructor
      · intro d hdq
        rw [Option.some_inj] at hdq
        subst hdq
        simp
      · simp

/-- C5 witness: the weekly hours of a concrete JC respondent studying 3
hours a day come out as seven times three. -/
theorem c5_weekly_seven_times_daily_witness :
    (buildRecord 1 COL_PATHWAY COL_DAILY none none none rowJC3).StudyHours_Weekly_Normal =
      some (7 * 3) :=
  (c5_weekly_seven_times_daily.1 1 COL_PATHWAY COL_DAILY none none none rowJC3).1 3
    (by rw [buildRecord_daily]
        have : rowJC3 COL_DAILY = some ("3") := by decide
        rw [this, parse_number_three])

/-- C10: the numeric parser never returns a negative value, a leading minus
sign is not part of the extracted token, daily hours in built records are
never negative, and the negative arm of the outlier flag is unreachable. -/
theorem c10_parser_nonneg :
    (∀ x q, parse_number x = some q → 0 ≤ q) ∧
    parse_number (some ("-5")) = some 5 ∧
    (∀ (i : Nat) (cp cd : String) (ce cs cr : Option String) (row : RawRow) (d : ℚ),
      (buildRecord i cp cd ce cs cr row).StudyHours_Daily_Normal = some d → 0 ≤ d) ∧
    (∀ (i : Nat) (cp cd : String) (ce cs cr : Option String) (row : RawRow),
      (buildRecord i cp cd ce cs cr row).Flag_OutlierDaily =
        (match (buildRecord i cp cd ce cs cr row).StudyHours_Daily_Normal with
         | some d => decide (12 < d)
         | none => false)) := by
  have hmain : ∀ x q, parse_number x = some q → 0 ≤ q := by
    intro x q h
    match x with
    | none => cases h
    | some s =>
      by_cases hr : hasRange (strip s.data)
      · simp [parse_number, hr] at h
      · cases hf : firstNum (strip s.data) with
        | none => simp [parse_number, hr, hf] at h
        | some p =>
          obtain ⟨ds, fs⟩ := p
          simp [parse_number, hr, hf] at h
          subst h
          rw [numValue]
          positivity
  refine ⟨hmain, ?_, ?_, ?_⟩
  · rw [parse_number_eval _ ['5'] [] (by decide) (by decide)]
    have h3 : digitsToNat ['5'] = 5 := rfl
    have h4 : digitsToNat [] = 0 := rfl
    simp [numValue, h3, h4]
  · intro i cp cd ce cs cr row d h
    rw [buildRecord_daily] at h
    exact hmain _ d h
  · intro i cp cd ce cs cr row
    rw [buildRecord_flagOutlier, buildRecord_daily]
    cases h : parse_number (row cd) with
    | none => rfl
    | some d =>
      have h0 : ¬ (d < 0) := not_lt.mpr (hmain _ d h)
      simp only [decide_eq_false h0, Bool.false_or]

/-- C10 witness: the parser output on the text minus five is nonnegative. -/
theorem c10_parser_nonneg_witness : (0 : ℚ) ≤ 5 :=
  c10_parser_nonneg.1 (some ("-5")) 5 c10_parser_nonneg.2.1

/-- C8: pandas sample standard deviation with Bessel correction silently
evaluates to NaN, embedded as missing, on any group of fewer than two
members; no error distinct from a normal result is signalled. -/
theorem c8_small_group_silent_nan :
    std_pd [(14 : ℝ)] = none ∧ (∀ xs : List ℝ, xs.length < 2 → std_pd xs = none) := by
  constructor
  · rw [std_pd, if_pos (by simp)]
  · intro xs h
    rw [std_pd, if_pos (by omega)]

/-- C8 witness: the degenerate standard deviation of an empty group. -/
theorem c8_small_group_silent_nan_witness : std_pd ([] : List ℝ) = none :=
  c8_small_group_silent_nan.2 [] (by simp)

/-- C4 counterexample: the src/stuff.py variant of pathway normalization
does not recognise the word junior, so the label Junior College normalizes
to missing rather than JC. -/
theorem c4_counterexample :
    normalize_pathway_v2 (some ("Junior College")) = none ∧
    normalize_pathway_v2 (some ("Junior College")) ≠ some ("JC") := by
  constructor
  · decide
  · decide

/-- C4 amended: the src/main.py pathway normalization is determined by the
lower-cased stripped text, maps any text containing jc or junior to JC,
otherwise any text containing poly or polytechnic to Poly, otherwise to
missing, and sends Junior College to JC; the src/stuff.py variant instead
tests only the substrings jc and poly. -/
theorem c4_pathway_normalization :
    normalize_pathway none = none ∧
    (∀ x y : String, lower (strip x.data) = lower (strip y.data) →
      normalize_pathway (some x) = normalize_pathway (some y)) ∧
    (∀ x : String,
      (("jc").data <:+: lower (strip x.data) ∨ ("junior").data <:+: lower (strip x.data)) →
      normalize_pathway (some x) = some ("JC")) ∧
    (∀ x : String,
      ¬ (("jc").data <:+: lower (strip x.data) ∨ ("junior").data <:+: lower (strip x.data)) →
      (("poly").data <:+: lower (strip x.data) ∨
        ("polytechnic").data <:+: lower (strip x.data)) →
      normalize_pathway (some x) = some ("Poly")) ∧
    (∀ x : String,
      ¬ (("jc").data <:+: lower (strip x.data) ∨ ("junior").data <:+: lower (strip x.data)) →
      ¬ (("poly").data <:+: lower (strip x.data) ∨
        ("polytechnic").data <:+: lower (strip x.data)) →
      normalize_pathway (some x) = none) ∧
    normalize_pathway (some ("Junior College")) = some ("JC") := by
  refine ⟨rfl, ?_, ?_, ?_, ?_, by decide⟩
  · intro x y hxy
    rw [normalize_pathway_some, normalize_pathway_some, hxy]
  · intro x hx
    have hb : (containsSub (("jc").data) (lower (strip x.data))
        || containsSub (("junior").data) (lower (strip x.data))) = true := by
      rw [Bool.or_eq_true, containsSub_iff, containsSub_iff]
      exact hx
    rw [normalize_pathway_some, if_pos hb]
  · intro x hx hp
    have hb : (containsSub (("jc").data) (lower (strip x.data))
        || containsSub (("junior").data) (lower (strip x.data))) = false := by
      rw [Bool.or_eq_false_iff, containsSub_eq_false, containsSub_eq_false]
      exact ⟨fun h => hx (Or.inl h), fun h => hx (Or.inr h)⟩
    have hb2 : (containsSub (("poly").data) (lower (strip x.data))
        || containsSub (("polytechnic").data) (lower (strip x.data))) = true := by
      rw [Bool.or_eq_true, containsSub_iff, containsSub_iff]
      exact hp
    rw [normalize_pathway_some, if_neg (by simp [hb]), if_pos hb2]
  · intro x hx hp
    have hb : (containsSub (("jc").data) (lower (strip x.data))
        || containsSub (("junior").data) (lower (strip x.data))) = false := by
      rw [Bool.or_eq_false_iff, containsSub_eq_false, containsSub_eq_false]
      exact ⟨fun h => hx (Or.inl h), fun h => hx (Or.inr h)⟩
    have hb2 : (containsSub (("poly").data) (lower (strip x.data))
        || containsSub (("polytechnic").data) (lower (strip x.data))) = false := by
      rw [Bool.or_eq_false_iff, containsSub_eq_false, containsSub_eq_false]
      exact ⟨fun h => hp (Or.inl h), fun h => hp (Or.inr h)⟩
    rw [normalize_pathway_some, if_neg (by simp [hb]), if_neg (by simp [hb2])]

/-- C4 witness: a junior-college label is mapped to JC by the src/main.py
normalization. -/
theorem c4_pathway_normalization_witness :
    normalize_pathway (some ("junior college")) = some ("JC") :=
  c4_pathway_normalization.2.2.1 ("junior college") (Or.inr (by decide))

/-- C6 counterexample: the src/stuff.py analysis filter keeps a JC row with
13 daily hours, even though 13 lies outside the plausible range, because
that variant has no outlier exclusion. -/
theorem c6_counterexample :
    (buildRecordV2 1 rowJC13).StudyHours_Daily_Normal = some 13 ∧
    ¬ ((13 : ℚ) ≤ 12) ∧
    buildRecordV2 1 rowJC13 ∈ analysisFilterV2 (buildTableV2 1 [rowJC13]) := by
  have hP : (buildRecordV2 1 rowJC13).Pathway = some ("JC") := by decide
  have hD : (buildRecordV2 1 rowJC13).StudyHours_Daily_Normal = some 13 := by
    have e : (buildRecordV2 1 rowJC13).StudyHours_Daily_Normal =
        parse_number (rowJC13 COL_DAILY) := rfl
    have e2 : rowJC13 COL_DAILY = some ("13") := by decide
    rw [e, e2, parse_number_thirteen]
  refine ⟨hD, by norm_num, ?_⟩
  have ht : buildTableV2 1 [rowJC13] = [buildRecordV2 1 rowJC13] := rfl
  rw [ht, analysisFilterV2]
  simp [List.filter_cons, hP, hD]

/-- C6 amended: for the src/main.py pipeline the analysis-ready set is an
order-preserving subsequence of the derived table containing exactly the
rows whose pathway is JC or Poly and whose daily hours are present and
inside the plausible range zero to twelve. -/
theorem c6_analysis_filter (cp cd : String) (ce cs cr : Option String) (rows : List RawRow) :
    List.Sublist (analysisFilter (buildTable cp cd ce cs cr 1 rows))
      (buildTable cp cd ce cs cr 1 rows) ∧
    (∀ r, r ∈ analysisFilter (buildTable cp cd ce cs cr 1 rows) ↔
      r ∈ buildTable cp cd ce cs cr 1 rows ∧
        (r.Pathway = some ("JC") ∨ r.Pathway = some ("Poly")) ∧
        ∃ d, r.StudyHours_Daily_Normal = some d ∧ 0 ≤ d ∧ d ≤ 12) := by
  refine ⟨List.filter_sublist _, fun r => ?_⟩
  rw [analysisFilter, List.mem_filter]
  constructor
  · rintro ⟨hmem, hpred⟩
    obtain ⟨j, row, _, rfl⟩ := exists_of_mem_buildTable hmem
    exact ⟨hmem, (buildRecord_pred_iff j cp cd ce cs cr row).mp hpred⟩
  · rintro ⟨hmem, hprop⟩
    obtain ⟨j, row, _, rfl⟩ := exists_of_mem_buildTable hmem
    exact ⟨hmem, (buildRecord_pred_iff j cp cd ce cs cr row).mpr hprop⟩

/-- C6 witness: a concrete JC row with 3 daily hours passes the src/main.py
analysis filter. -/
theorem c6_analysis_filter_witness :
    buildRecord 1 COL_PATHWAY COL_DAILY none none none rowJC3 ∈
      analysisFilter (buildTable COL_PATHWAY COL_DAILY none none none 1 [rowJC3]) := by
  refine ((c6_analysis_filter COL_PATHWAY COL_DAILY none none none [rowJC3]).2 _).mpr
    ⟨?_, ?_, 3, ?_, by norm_num, by norm_num⟩
  · have e : buildTable COL_PATHWAY COL_DAILY none none none 1 [rowJC3] =
        [buildRecord 1 COL_PATHWAY COL_DAILY none none none rowJC3] := rfl
    rw [e]
    exact List.mem_singleton.mpr rfl
  · left
    rw [buildRecord_pathway]
    decide
  · rw [buildRecord_daily]
    have e : rowJC3 COL_DAILY = some ("3") := by decide
    rw [e, parse_number_three]

/-- C7: a header set resolving no pathway or no daily-hours column makes
the run abort with a configuration error carrying the full header list and
producing zero output files, while an unresolved optional exam column only
yields an all-missing exam field in the derived table. -/
theorem c7_required_columns (headers : List String) (rows : List RawRow) :
    ((∀ c ∈ pathwayCandidates, c ∉ headers) ∨ (∀ c ∈ dailyNormalCandidates, c ∉ headers) →
      ∃ e, runMain headers rows = Except.error e ∧ e.found_headers = headers ∧
        outputFiles (runMain headers rows) = []) ∧
    (∀ res, runMain headers rows = Except.ok res →
      (∀ c ∈ dailyExamCandidates, c ∉ headers) →
      ∀ r ∈ res.df, r.StudyHours_Daily_Exam = none) := by
  have hpick : ∀ cands : List String, (∀ c ∈ cands, c ∉ headers) →
      pick_column headers cands = none := by
    intro cands h
    rw [pick_column, List.find?_eq_none]
    intro c hc
    simp only [List.elem_eq_mem, decide_eq_true_eq]
    exact h c hc
  constructor
  · intro h
    have h' : pick_column headers pathwayCandidates = none ∨
        pick_column headers dailyNormalCandidates = none := by
      rcases h with h | h
      · exact Or.inl (hpick _ h)
      · exact Or.inr (hpick _ h)
    have he := runMain_error headers rows h'
    exact ⟨_, he, rfl, by rw [he]; rfl⟩
  · intro res hres hexam r hr
    have hce : pick_column headers dailyExamCandidates = none := hpick _ hexam
    cases hcp : pick_column headers pathwayCandidates with
    | none =>
      rw [runMain_error headers rows (Or.inl hcp)] at hres
      cases hres
    | some cp =>
      cases hcd : pick_column headers dailyNormalCandidates with
      | none =>
        rw [runMain_error headers rows (Or.inr hcd)] at hres
        cases hres
      | some cd =>
        have hok : runMain headers rows = Except.ok
            { df := buildTable cp cd none (pick_column headers stressCandidates)
                (pick_column headers stressReasonCandidates) 1 rows
              df_analysis := analysisFilter (buildTable cp cd none
                (pick_column headers stressCandidates)
                (pick_column headers stressReasonCandidates) 1 rows)
              df_poly := (analysisFilter (buildTable cp cd none
                (pick_column headers stressCandidates)
                (pick_column headers stressReasonCandidates) 1 rows)).filter
                  (fun r => r.Pathway == some ("Poly"))
              df_jc := (analysisFilter (buildTable cp cd none
                (pick_column headers stressCandidates)
                (pick_column headers stressReasonCandidates) 1 rows)).filter
                  (fun r => r.Pathway == some ("JC")) } := by
          simp [runMain, hcp, hcd, hce]
        rw [hok] at hres
        cases hres with
        | refl => exact buildTable_exam_none hr

/-- C7 witness: a header set containing only an unrelated column aborts
with the configuration error and produces no output files. -/
theorem c7_required_columns_witness :
    ∃ e, runMain [("foo")] [] = Except.error e ∧ e.found_headers = [("foo")] ∧
      outputFiles (runMain [("foo")] []) = [] :=
  (c7_required_columns [("foo")] []).1 (Or.inl (by decide))

/-- C1: the one-sample test uses the Bessel-corrected sample standard
deviation, the spec's t formula against the benchmark 15.5, degrees of
freedom one less than the sample size, and the two-tailed p-value from the
Student-t CDF. -/
theorem c1_one_sample_test (Tcdf : ℝ → ℝ → ℝ) (poly : List ℝ)
    (h2 : 2 ≤ poly.length) (hsd : sd_spec poly ≠ 0) :
    std1 poly = sd_spec poly ∧
    t1 poly = (mean poly - 15.5) / (sd_spec poly / Real.sqrt (poly.length : ℝ)) ∧
    p1 Tcdf poly = 2 * (1 - Tcdf |t1 poly| ((poly.length : ℝ) - 1)) := by
  refine ⟨rfl, rfl, ?_⟩
  have h1 : (1 : ℕ) ≤ poly.length := le_trans (by norm_num) h2
  rw [p1, Nat.cast_sub h1, Nat.cast_one]

/-- C1 witness: the one-sample p-value at a concrete two-point sample and a
constant-zero CDF. -/
theorem c1_one_sample_test_witness : p1 (fun _ _ => 0) [(0 : ℝ), 2] = 2 := by
  have h := c1_one_sample_test (fun _ _ => 0) [(0 : ℝ), 2] (by norm_num)
    (by
      have e : sd_spec [(0 : ℝ), 2] = Real.sqrt 2 := by
        rw [sd_spec]
        norm_num [mean]
      rw [e]
      exact Real.sqrt_ne_zero'.mpr (by norm_num))
  rw [h.2.2]
  norm_num

/-- C2: the Welch test uses the spec's standard error, t statistic,
Welch-Satterthwaite degrees of freedom over the Bessel-corrected standard
deviations, and the upper-tail p-value from the Student-t CDF. -/
theorem c2_welch_test (Tcdf : ℝ → ℝ → ℝ) (jc poly : List ℝ)
    (hj : 2 ≤ jc.length) (hp : 2 ≤ poly.length) (hse : se jc poly ≠ 0) :
    se jc poly = Real.sqrt (sd_spec jc ^ 2 / (jc.length : ℝ) +
      sd_spec poly ^ 2 / (poly.length : ℝ)) ∧
    t2 jc poly = (mean jc - mean poly) / se jc poly ∧
    df_welch jc poly =
      (sd_spec jc ^ 2 / (jc.length : ℝ) + sd_spec poly ^ 2 / (poly.length : ℝ)) ^ 2 /
        ((sd_spec jc ^ 2 / (jc.length : ℝ)) ^ 2 / ((jc.length : ℝ) - 1)
          + (sd_spec poly ^ 2 / (poly.length : ℝ)) ^ 2 / ((poly.length : ℝ) - 1)) ∧
    p2_one_tailed Tcdf jc poly = 1 - Tcdf (t2 jc poly) (df_welch jc poly) := by
  refine ⟨rfl, rfl, ?_, rfl⟩
  have h1j : (1 : ℕ) ≤ jc.length := le_trans (by norm_num) hj
  have h1p : (1 : ℕ) ≤ poly.length := le_trans (by norm_num) hp
  rw [df_welch, Nat.cast_sub h1j, Nat.cast_sub h1p, Nat.cast_one]
  rfl

/-- C2 witness: the Welch p-value at two concrete two-point samples and a
constant-zero CDF. -/
theorem c2_welch_test_witness :
    p2_one_tailed (fun _ _ => 0) [(0 : ℝ), 2] [(1 : ℝ), 3] = 1 := by
  have hse : se [(0 : ℝ), 2] [(1 : ℝ), 3] ≠ 0 := by
    have h1 : std1 [(0 : ℝ), 2] ^ 2 = 2 :=
      (std1_sq [(0 : ℝ), 2] (by rw [var1_zero_two]; norm_num)).trans var1_zero_two
    have h2 : std1 [(1 : ℝ), 3] ^ 2 = 2 :=
      (std1_sq [(1 : ℝ), 3] (by rw [var1_one_three]; norm_num)).trans var1_one_three
    have e : se [(0 : ℝ), 2] [(1 : ℝ), 3] = Real.sqrt 2 := by
      rw [se, h1, h2]
      norm_num
    rw [e]
    exact Real.sqrt_ne_zero'.mpr (by norm_num)
  have h := c2_welch_test (fun _ _ => 0) [(0 : ℝ), 2] [(1 : ℝ), 3]
    (by norm_num) (by norm_num) hse
  rw [h.2.2.2]
  norm_num

/-- C9 counterexample: with two equal two-point samples of positive
variance the Welch degrees of freedom reach the upper endpoint
n_jc plus n_poly minus 2 exactly, so they do not lie strictly below it. -/
theorem c9_counterexample :
    df_welch [(0 : ℝ), 2] [(0 : ℝ), 2] = 2 ∧
    0 < var1 [(0 : ℝ), 2] ∧
    ¬ (df_welch [(0 : ℝ), 2] [(0 : ℝ), 2] <
        (([(0 : ℝ), 2].length : ℝ) + ([(0 : ℝ), 2].length : ℝ) - 2)) := by
  have hdf : df_welch [(0 : ℝ), 2] [(0 : ℝ), 2] = 2 := by
    rw [df_welch_eq_var _ _ (by rw [var1_zero_two]; norm_num)
      (by rw [var1_zero_two]; norm_num), var1_zero_two]
    norm_num
  refine ⟨hdf, by rw [var1_zero_two]; norm_num, ?_⟩
  rw [hdf]
  norm_num

/-- C9 amended: for samples of size at least two with positive sample
variances the Welch degrees of freedom lie strictly above the smaller
group's degrees of freedom and at most (with equality possible) at the sum
of both groups' degrees of freedom. -/
theorem c9_welch_df_bounds (jc poly : List ℝ)
    (hj2 : 2 ≤ jc.length) (hp2 : 2 ≤ poly.length)
    (hvj : 0 < var1 jc) (hvp : 0 < var1 poly) :
    ((min jc.length poly.length : ℕ) : ℝ) - 1 < df_welch jc poly ∧
    df_welch jc poly ≤ (jc.length : ℝ) + (poly.length : ℝ) - 2 := by
  have h1j : (1 : ℕ) ≤ jc.length := le_trans (by norm_num) hj2
  have h1p : (1 : ℕ) ≤ poly.length := le_trans (by norm_num) hp2
  have hnj : (2 : ℝ) ≤ (jc.length : ℝ) := by exact_mod_cast hj2
  have hnp : (2 : ℝ) ≤ (poly.length : ℝ) := by exact_mod_cast hp2
  have hnj0 : (0 : ℝ) < (jc.length : ℝ) := by linarith
  have hnp0 : (0 : ℝ) < (poly.length : ℝ) := by linarith
  have ha : 0 < var1 jc / (jc.length : ℝ) := div_pos hvj hnj0
  have hb : 0 < var1 poly / (poly.length : ℝ) := div_pos hvp hnp0
  have hm : (0 : ℝ) < (jc.length : ℝ) - 1 := by linarith
  have hk : (0 : ℝ) < (poly.length : ℝ) - 1 := by linarith
  have hrw := df_welch_eq_var jc poly hvj.le hvp.le
  rw [Nat.cast_sub h1j, Nat.cast_sub h1p, Nat.cast_one] at hrw
  constructor
  · have hlow := welch_lower (var1 jc / (jc.length : ℝ)) (var1 poly / (poly.length : ℝ))
      ((jc.length : ℝ) - 1) ((poly.length : ℝ) - 1) ha hb hm hk
    rw [hrw, Nat.cast_min, ← min_sub_sub_right]
    exact hlow
  · have hup := welch_upper (var1 jc / (jc.length : ℝ)) (var1 poly / (poly.length : ℝ))
      ((jc.length : ℝ) - 1) ((poly.length : ℝ) - 1) ha hb hm hk
    rw [hrw]
    linarith

/-- C9 witness: the amended bounds at concrete samples of sizes two and
three. -/
theorem c9_welch_df_bounds_witness :
    ((min [(0 : ℝ), 2].length [(0 : ℝ), 2, 4].length : ℕ) : ℝ) - 1 <
      df_welch [(0 : ℝ), 2] [(0 : ℝ), 2, 4] ∧
    df_welch [(0 : ℝ), 2] [(0 : ℝ), 2, 4] ≤
      (([(0 : ℝ), 2].length : ℝ) + ([(0 : ℝ), 2, 4].length : ℝ) - 2) :=
  c9_welch_df_bounds [(0 : ℝ), 2] [(0 : ℝ), 2, 4] (by norm_num) (by norm_num)
    (by rw [var1_zero_two]; norm_num)
    (by norm_num [var1, mean])

/-- C3: the parser yields missing on missing input, on any text containing
the spec's range pattern, and on digit-free text; on any other text it
extracts the first maximal digit run together with its optional fraction
and returns the token's value; the four spec examples behave as stated. -/
theorem c3_parse_number :
    parse_number none = none ∧
    (∀ s : String, HasRangePattern (strip s.data) → parse_number (some s) = none) ∧
    (∀ s : String, (∀ c ∈ strip s.data, c.isDigit = false) → parse_number (some s) = none) ∧
    (∀ (s : String) (pre ds rest : List Char),
      ¬ HasRangePattern (strip s.data) →
      strip s.data = pre ++ ds ++ rest →
      (∀ c ∈ pre, c.isDigit = false) →
      ds ≠ [] → (∀ c ∈ ds, c.isDigit = true) →
      (∀ c, rest.head? = some c → c.isDigit = false) →
      ((∀ r2, rest ≠ '.' :: r2) → parse_number (some s) = some (numValue ds [])) ∧
      (∀ fs r3, rest = '.' :: (fs ++ r3) → (∀ c ∈ fs, c.isDigit = true) →
        (∀ c, r3.head? = some c → c.isDigit = false) →
        parse_number (some s) = some (numValue ds fs))) ∧
    parse_number (some ("6-7")) = none ∧
    parse_number (some ("")) = none ∧
    parse_number (some ("3 hours")) = some 3 ∧
    parse_number (some ("2.5")) = some (5 / 2) := by
  refine ⟨rfl, ?_, ?_, ?_, by decide, by decide, ?_, ?_⟩
  · intro s hp
    have hr : hasRange (strip s.data) = true := (hasRange_iff _).mpr hp
    simp [parse_number, hr]
  · intro s hnd
    by_cases hr : hasRange (strip s.data)
    · simp [parse_number, hr]
    · have hf : firstNum (strip s.data) = none := firstNum_none _ hnd
      simp [parse_number, hr, hf]
  · intro s pre ds rest hnp he hpre hne hds hrest
    have hr : hasRange (strip s.data) = false := by
      cases h : hasRange (strip s.data)
      · rfl
      · exact absurd ((hasRange_iff _).mp h) hnp
    have hf : firstNum (strip s.data) = some (ds, fracOf rest) := by
      rw [he, List.append_assoc, firstNum_skip pre _ hpre]
      exact firstNum_at ds rest hne hds hrest
    constructor
    · intro hnodot
      have hfr : fracOf rest = [] := by
        cases rest with
        | nil => rfl
        | cons a t =>
          have haz : a ≠ '.' := by
            intro hEq
            subst hEq
            exact (hnodot t) rfl
          simp [fracOf, haz]
      rw [parse_number_eval s ds (fracOf rest) hr hf, hfr]
    · intro fs r3 hEq hfs hr3
      have hfr : fracOf rest = fs := by
        rw [hEq]
        have e : fracOf ('.' :: (fs ++ r3)) = (fs ++ r3).takeWhile Char.isDigit := by
          simp [fracOf]
        rw [e, (takeWhile_all_append Char.isDigit fs r3 hfs hr3).1]
      rw [parse_number_eval s ds (fracOf rest) hr hf, hfr]
  · rw [parse_number_eval _ ['3'] [] (by decide) (by decide)]
    have h3 : digitsToNat ['3'] = 3 := rfl
    have h4 : digitsToNat [] = 0 := rfl
    simp [numValue, h3, h4]
  · rw [parse_number_eval _ ['2'] ['5'] (by decide) (by decide)]
    have h3 : digitsToNat ['2'] = 2 := rfl
    have h4 : digitsToNat ['5'] = 5 := rfl
    simp [numValue, h3, h4]
    norm_num

/-- C3 witness: a free-text range with spaces is rejected via the spec's
range pattern. -/
theorem c3_parse_number_witness : parse_number (some ("10 - 12")) = none :=
  c3_parse_number.2.1 ("10 - 12")
    ⟨[], ['1', '0'], [' '], [' '], ['1'], ['2'], by decide, by decide, by decide, by decide,
      by decide, by decide, by decide⟩

end SRM
